import Mathlib

/-!
Verification of the lazy columnar view layer of velox
(velox/expression/VectorReaders.h and velox/expression/ComplexViewTypes.h):
the type-indexed reader hierarchy, the two-phase null-propagation protocol,
and the view/accessor/iterator types.

Machine integers (vector_size_t) are modelled as Nat: all indices, offsets
and lengths in the claims are nonnegative and far from overflow.
A failed VELOX_DCHECK assertion is modelled as the value none of an
Option Bool result; a VELOX_UNSUPPORTED throw is modelled as the error case
of an Except result, a signal distinct from the assertion failure.
-/

set_option maxHeartbeats 1000000

namespace Velox

/-- Modelled from the spec: the Decoded Source collaborator (DecodedVector),
whose implementation is not part of the excerpted source. It presents one
column as isNullAt(logicalIndex), index(logicalIndex) -> physicalIndex and
mayHaveNulls(). Following the glossary (the protocol proves a batch has no
nulls in a subtree), mayHaveNulls is modelled exactly: it holds iff some row
of the batch is null. -/
structure DecodedVector where
  size : Nat
  isNullAt : Nat → Bool
  index : Nat → Nat

/-- Modelled from the spec: mayHaveNulls() of a Decoded Source, exact over
the rows of the batch. -/
def DecodedVector.mayHaveNulls (d : DecodedVector) : Bool :=
  (List.range d.size).any d.isNullAt

/-- The VectorReader hierarchy of VectorReaders.h as one tree type, one
constructor per template specialization (scalar, Array, Map, Row, Variadic).
The Option Bool fields are the may-have-nulls memo slots
(valuesMayHaveNulls and keysMayHaveNulls in the source), none while unset;
a freshly constructed reader has every memo slot unset. Row and Variadic
readers have no memo slot of their own, exactly as in the source. -/
inductive VectorReader : Type where
  | scalar (d : DecodedVector)
  | array (d : DecodedVector) (offsets lengths : Nat → Nat)
      (child : VectorReader) (valuesMayHaveNulls : Option Bool)
  | map (d : DecodedVector) (offsets lengths : Nat → Nat)
      (keyReader valReader : VectorReader)
      (keysMayHaveNulls valuesMayHaveNulls : Option Bool)
  | row (d : DecodedVector) (children : List VectorReader)
  | variadic (children : List VectorReader)

/-- Short-circuit boolean or over assertion-carrying values: the left
operand is evaluated first; a true left operand returns without looking at
the right one, mirroring the C++ || in containsNull. -/
def oor : Option Bool → Option Bool → Option Bool
  | none, _ => none
  | some true, _ => some true
  | some false, b => b

mutual

/-- containsNull(index) of each reader specialization, translated from
VectorReaders.h. Map and Array first check their memo slots
(VELOX_DCHECK, modelled as none when a slot is unset), then combine the
own-row null bit with the memoized child flags and window scans of the
child readers. Row and Variadic delegate to their children with no memo
check of their own. -/
def containsNullAt : VectorReader → Nat → Option Bool
  | .scalar d, i => some (d.isNullAt i)
  | .array d offsets lengths child m, i =>
    match m with
    | none => none
    | some valuesM =>
      oor (some (d.isNullAt i))
        (if valuesM then
          containsNullRange child (offsets (d.index i))
            (offsets (d.index i) + lengths (d.index i))
        else some false)
  | .map d offsets lengths keyReader valReader km vm, i =>
    match km, vm with
    | some keysM, some valuesM =>
      oor (some (d.isNullAt i))
        (oor
          (if keysM then
            containsNullRange keyReader (offsets (d.index i))
              (offsets (d.index i) + lengths (d.index i))
          else some false)
          (if valuesM then
            containsNullRange valReader (offsets (d.index i))
              (offsets (d.index i) + lengths (d.index i))
          else some false))
    | _, _ => none
  | .row d children, i =>
    oor (some (d.isNullAt i)) (anyChildAt children (d.index i))
  | .variadic children, i => anyChildAt children i
termination_by r _ => (3 * sizeOf r, 0)

/-- The short-circuit fold of containsNull(decodedIndex) across the child
readers of a Row (the fold expression) or a Variadic (the loop). -/
def anyChildAt : List VectorReader → Nat → Option Bool
  | [], _ => some false
  | c :: cs, i => oor (containsNullAt c i) (anyChildAt cs i)
termination_by cs _ => (3 * sizeOf cs, 0)

/-- containsNull(startIndex, endIndex): for every shape but Variadic this is
the loop over containsNull(index) for index in [startIndex, endIndex);
the Variadic specialization instead loops over its children, asking each
for the whole range. -/
def containsNullRange : VectorReader → Nat → Nat → Option Bool
  | .variadic children, s, e => anyChildRange children s e
  | .scalar d, s, e => loopContainsNull (.scalar d) s (e - s)
  | .array d offsets lengths child m, s, e =>
    loopContainsNull (.array d offsets lengths child m) s (e - s)
  | .map d offsets lengths kr vr km vm, s, e =>
    loopContainsNull (.map d offsets lengths kr vr km vm) s (e - s)
  | .row d children, s, e => loopContainsNull (.row d children) s (e - s)
termination_by r _ _ => (3 * sizeOf r + 2, 0)

/-- The loop of containsNull(startIndex, endIndex): n iterations starting
at index s, returning early on the first true (or failed assertion). -/
def loopContainsNull : VectorReader → Nat → Nat → Option Bool
  | _, _, 0 => some false
  | r, s, n + 1 => oor (containsNullAt r s) (loopContainsNull r (s + 1) n)
termination_by r _ n => (3 * sizeOf r + 1, n)

/-- The loop of the Variadic containsNull(startIndex, endIndex) over its
child readers. -/
def anyChildRange : List VectorReader → Nat → Nat → Option Bool
  | [], _, _ => some false
  | c :: cs, s, e => oor (containsNullRange c s e) (anyChildRange cs s e)
termination_by cs _ _ => (3 * sizeOf cs + 2, 0)

end

mutual

/-- Modelled from the spec: the recursive may-have-nulls flag of the decoded
vector tree underlying a reader (DecodedVector::mayHaveNullsRecursive and
BaseVector::mayHaveNullsRecursive are external to the excerpted source).
It ignores the memo slots entirely: it holds iff some vector in the subtree
has a null row. The children of a reader were decoded from the children of
its vector, so the vector tree and the reader tree coincide. -/
def hasNullRec : VectorReader → Bool
  | .scalar d => d.mayHaveNulls
  | .array d _ _ child _ => d.mayHaveNulls || hasNullRec child
  | .map d _ _ keyReader valReader _ _ =>
    d.mayHaveNulls || hasNullRec keyReader || hasNullRec valReader
  | .row d children => d.mayHaveNulls || anyHasNullRec children
  | .variadic children => anyHasNullRec children
termination_by r => sizeOf r

/-- hasNullRec folded across a list of child readers. -/
def anyHasNullRec : List VectorReader → Bool
  | [] => false
  | c :: cs => hasNullRec c || anyHasNullRec cs
termination_by cs => sizeOf cs

end

mutual

/-- mayHaveNullsRecursive() of each reader specialization, translated from
VectorReaders.h. Map and Array assert that their memo slots are set
(modelled as none when unset) and combine the own mayHaveNulls flag with the
memos; the Row specialization delegates to the decoded row vector
(decoded_.mayHaveNullsRecursive(), modelled by hasNullRec); Variadic loops
over its children. -/
def mayHaveNullsRecursive : VectorReader → Option Bool
  | .scalar d => some d.mayHaveNulls
  | .array d _ _ _ m =>
    match m with
    | none => none
    | some valuesM => some (d.mayHaveNulls || valuesM)
  | .map d _ _ _ _ km vm =>
    match km, vm with
    | some keysM, some valuesM => some (d.mayHaveNulls || keysM || valuesM)
    | _, _ => none
  | .row d children => some (d.mayHaveNulls || anyHasNullRec children)
  | .variadic children => anyMayHaveNullsRecursive children
termination_by r => sizeOf r

/-- The loop of the Variadic mayHaveNullsRecursive() over its children,
returning early on the first true. -/
def anyMayHaveNullsRecursive : List VectorReader → Option Bool
  | [] => some false
  | c :: cs => oor (mayHaveNullsRecursive c) (anyMayHaveNullsRecursive cs)
termination_by cs => sizeOf cs

end

mutual

/-- setChildrenMayHaveNulls() translated from VectorReaders.h: recursively
set the children first, then fill the memo slots of Map and Array from the
mayHaveNullsRecursive() of the freshly set child readers. Scalars are a
no-op; Row and Variadic only recurse (they have no slot of their own). -/
def setChildrenMayHaveNulls : VectorReader → VectorReader
  | .scalar d => .scalar d
  | .array d offsets lengths child _ =>
    let child2 := setChildrenMayHaveNulls child
    .array d offsets lengths child2 (mayHaveNullsRecursive child2)
  | .map d offsets lengths keyReader valReader _ _ =>
    let keyReader2 := setChildrenMayHaveNulls keyReader
    let valReader2 := setChildrenMayHaveNulls valReader
    .map d offsets lengths keyReader2 valReader2
      (mayHaveNullsRecursive keyReader2) (mayHaveNullsRecursive valReader2)
  | .row d children => .row d (setChildrenList children)
  | .variadic children => .variadic (setChildrenList children)
termination_by r => sizeOf r

/-- setChildrenMayHaveNulls mapped across a list of child readers. -/
def setChildrenList : List VectorReader → List VectorReader
  | [] => []
  | c :: cs => setChildrenMayHaveNulls c :: setChildrenList cs
termination_by cs => sizeOf cs

end

mutual

/-- Every memo slot in the tree is set (the state after phase 1 of the
protocol has run). -/
def allSetB : VectorReader → Bool
  | .scalar _ => true
  | .array _ _ _ child m => m.isSome && allSetB child
  | .map _ _ _ keyReader valReader km vm =>
    km.isSome && vm.isSome && allSetB keyReader && allSetB valReader
  | .row _ children => allSetList children
  | .variadic children => allSetList children
termination_by r => sizeOf r

/-- allSetB folded across a list of child readers. -/
def allSetList : List VectorReader → Bool
  | [] => true
  | c :: cs => allSetB c && allSetList cs
termination_by cs => sizeOf cs

end

mutual

/-- The proposition that some vector in the reader tree has a null row:
the own batch has a null row, or some descendant vector does. -/
def treeHasNull : VectorReader → Prop
  | .scalar d => ∃ i, i < d.size ∧ d.isNullAt i = true
  | .array d _ _ child _ =>
    (∃ i, i < d.size ∧ d.isNullAt i = true) ∨ treeHasNull child
  | .map d _ _ keyReader valReader _ _ =>
    (∃ i, i < d.size ∧ d.isNullAt i = true) ∨ treeHasNull keyReader ∨
      treeHasNull valReader
  | .row d children =>
    (∃ i, i < d.size ∧ d.isNullAt i = true) ∨ anyTreeHasNull children
  | .variadic children => anyTreeHasNull children
termination_by r => sizeOf r

/-- treeHasNull disjoined across a list of child readers. -/
def anyTreeHasNull : List VectorReader → Prop
  | [] => False
  | c :: cs => treeHasNull c ∨ anyTreeHasNull cs
termination_by cs => sizeOf cs

end

/-- The VELOX_UNSUPPORTED signal, a loud unsupported-operation error that is
distinct from the VELOX_DCHECK assertion failure. -/
inductive UnsupportedSignal : Type where
  | unsupported (msg : String)

/-- VectorReader of Generic, translated from VectorReaders.h: it wraps one
decoded source only (no eager child decode). The mutable cast cache only
serves operator[] and is irrelevant to the four operations below. -/
structure GenericVectorReader where
  decoded : DecodedVector

/-- The message of the VELOX_UNSUPPORTED raised by every null-protocol
operation of the Generic reader. -/
def genericUnsupportedMsg : String :=
  "Calling callNullFree with Generic arguments is not yet supported."

/-- containsNull(index) of the Generic reader: unconditionally
VELOX_UNSUPPORTED. -/
def GenericVectorReader.containsNullAt (_ : GenericVectorReader) (_ : Nat) :
    Except UnsupportedSignal Bool :=
  .error (.unsupported genericUnsupportedMsg)

/-- containsNull(startIndex, endIndex) of the Generic reader:
unconditionally VELOX_UNSUPPORTED. -/
def GenericVectorReader.containsNullRange (_ : GenericVectorReader)
    (_ _ : Nat) : Except UnsupportedSignal Bool :=
  .error (.unsupported genericUnsupportedMsg)

/-- mayHaveNullsRecursive() of the Generic reader: unconditionally
VELOX_UNSUPPORTED. -/
def GenericVectorReader.mayHaveNullsRecursive (_ : GenericVectorReader) :
    Except UnsupportedSignal Bool :=
  .error (.unsupported genericUnsupportedMsg)

/-- setChildrenMayHaveNulls() of the Generic reader: unconditionally
VELOX_UNSUPPORTED. -/
def GenericVectorReader.setChildrenMayHaveNulls (_ : GenericVectorReader) :
    Except UnsupportedSignal Unit :=
  .error (.unsupported genericUnsupportedMsg)

/-- The slice of the reader interface that the view and accessor types of
ComplexViewTypes.h consume: isSet(index) and operator[](index). The views
are templated over the reader type and never look further into it. -/
structure SReader (α : Type) where
  isSet : Nat → Bool
  valueAt : Nat → α

/-- OptionalVectorValueAccessor of ComplexViewTypes.h: a lazy optional
wrapper (readerPtr, index) around one element of a reader. -/
structure OptionalVectorValueAccessor (α : Type) where
  reader : SReader α
  index : Nat

/-- has_value(): delegates to reader->isSet(index). -/
def OptionalVectorValueAccessor.hasValue {α : Type}
    (a : OptionalVectorValueAccessor α) : Bool :=
  a.reader.isSet a.index

/-- value(): delegates to (*reader)[index]. -/
def OptionalVectorValueAccessor.value {α : Type}
    (a : OptionalVectorValueAccessor α) : α :=
  a.reader.valueAt a.index

/-- incrementIndex(): increments the stored index only. -/
def OptionalVectorValueAccessor.incrementIndex {α : Type}
    (a : OptionalVectorValueAccessor α) : OptionalVectorValueAccessor α :=
  ⟨a.reader, a.index + 1⟩

/-- operator== between two accessors, translated from ComplexViewTypes.h:
differing has_value is unequal, both present compares the underlying
values, both absent is equal. -/
def OptionalVectorValueAccessor.beqAccessor {α : Type} [BEq α]
    (a other : OptionalVectorValueAccessor α) : Bool :=
  if other.hasValue != a.hasValue then false
  else if a.hasValue then a.value == other.value
  else true

/-- operator!= between two accessors: the negation of operator==. -/
def OptionalVectorValueAccessor.bneAccessor {α : Type} [BEq α]
    (a other : OptionalVectorValueAccessor α) : Bool :=
  !(OptionalVectorValueAccessor.beqAccessor a other)

/-- operator==(std::optional, OptionalVectorValueAccessor), translated from
ComplexViewTypes.h. The enable_if restriction to value types that convert
losslessly (trivially constructible) is modelled by using one element type
on both sides. -/
def optEqAccessor {α : Type} [BEq α] (lhs : Option α)
    (rhs : OptionalVectorValueAccessor α) : Bool :=
  if lhs.isSome != rhs.hasValue then false
  else
    match lhs with
    | some v => v == rhs.value
    | none => true

/-- operator==(OptionalVectorValueAccessor, std::optional): the source
delegates with return rhs == lhs. -/
def accessorEqOpt {α : Type} [BEq α] (lhs : OptionalVectorValueAccessor α)
    (rhs : Option α) : Bool :=
  optEqAccessor rhs lhs

/-- operator!=(std::optional, OptionalVectorValueAccessor):
return not (lhs == rhs). -/
def optNeAccessor {α : Type} [BEq α] (lhs : Option α)
    (rhs : OptionalVectorValueAccessor α) : Bool :=
  !(optEqAccessor lhs rhs)

/-- operator!=(OptionalVectorValueAccessor, std::optional):
return not (lhs == rhs), with the == resolving to the delegating overload. -/
def accessorNeOpt {α : Type} [BEq α] (lhs : OptionalVectorValueAccessor α)
    (rhs : Option α) : Bool :=
  !(accessorEqOpt lhs rhs)

/-- IndexBasedIterator of ComplexViewTypes.h: wraps one element accessor;
equality between iterators compares indices only. -/
structure IndexBasedIterator (α : Type) where
  element : OptionalVectorValueAccessor α

/-- operator!= of the iterator: index inequality. -/
def IndexBasedIterator.bne {α : Type} (a rhs : IndexBasedIterator α) : Bool :=
  a.element.index != rhs.element.index

/-- operator== of the iterator: index equality. -/
def IndexBasedIterator.beqIter {α : Type} (a rhs : IndexBasedIterator α) :
    Bool :=
  a.element.index == rhs.element.index

/-- Pre-increment of the iterator: element_.incrementIndex(). -/
def IndexBasedIterator.inc {α : Type} (it : IndexBasedIterator α) :
    IndexBasedIterator α :=
  ⟨it.element.incrementIndex⟩

/-- Dereference of the iterator: the wrapped accessor itself, not a
materialized value. -/
def IndexBasedIterator.deref {α : Type} (it : IndexBasedIterator α) :
    OptionalVectorValueAccessor α :=
  it.element

/-- ArrayView of ComplexViewTypes.h: a windowed read-only facade
(readerPtr, offset, size) over a child reader. -/
structure ArrayView (α : Type) where
  reader : SReader α
  offset : Nat
  size : Nat

/-- operator[](index): Element at index + offset. -/
def ArrayView.get {α : Type} (v : ArrayView α) (i : Nat) :
    OptionalVectorValueAccessor α :=
  ⟨v.reader, i + v.offset⟩

/-- at(index): return (*this)[index]. Named atIdx because at is a reserved
word in Lean. -/
def ArrayView.atIdx {α : Type} (v : ArrayView α) (i : Nat) :
    OptionalVectorValueAccessor α :=
  ArrayView.get v i

/-- begin(): an iterator wrapping the element at offset. -/
def ArrayView.begin {α : Type} (v : ArrayView α) : IndexBasedIterator α :=
  ⟨⟨v.reader, v.offset⟩⟩

/-- end(): an iterator wrapping the element at offset + size. Named endIter
because end is a reserved word in Lean. -/
def ArrayView.endIter {α : Type} (v : ArrayView α) : IndexBasedIterator α :=
  ⟨⟨v.reader, v.offset + v.size⟩⟩

/-- mayHaveNulls() of ArrayView: the source returns false unconditionally. -/
def ArrayView.mayHaveNulls {α : Type} (_ : ArrayView α) : Bool :=
  false

/-- size() of ArrayView: returns the stored size. -/
def ArrayView.sizeFn {α : Type} (v : ArrayView α) : Nat :=
  v.size

/-- The iterator loop over an ArrayView: while (it != stop) visit *it then
++it, with fuel bounding the number of steps. A range-for statement lowers
to exactly this loop over begin() and end(). -/
def iterCollect {α : Type} (fuel : Nat) (it stop : IndexBasedIterator α) :
    List (OptionalVectorValueAccessor α) :=
  match fuel with
  | 0 => []
  | f + 1 =>
    if IndexBasedIterator.bne it stop then
      IndexBasedIterator.deref it ::
        iterCollect f (IndexBasedIterator.inc it) stop
    else []

/-- The indexed loop over an ArrayView: visit operator[](i) for i in
[0, size). -/
def indexedCollect {α : Type} (v : ArrayView α) :
    List (OptionalVectorValueAccessor α) :=
  (List.range v.size).map (fun i => ArrayView.get v i)

/-- LazyKeyAccessor of MapView: a lazy never-null wrapper
(readerPtr, index) around one key. -/
structure LazyKeyAccessor (α : Type) where
  reader : SReader α
  index : Nat

/-- incrementIndex() of the key accessor: increments the stored index. -/
def LazyKeyAccessor.incrementIndex {α : Type} (a : LazyKeyAccessor α) :
    LazyKeyAccessor α :=
  ⟨a.reader, a.index + 1⟩

/-- MapView::Element of ComplexViewTypes.h: a pair-like element holding a
never-null key accessor (first), a nullable value accessor (second) and its
own index, all constructed at one index. -/
structure MapViewElement (κ ν : Type) where
  first : LazyKeyAccessor κ
  second : OptionalVectorValueAccessor ν
  index : Nat

/-- The Element constructor: first(keyReader, index),
second(valueReader, index), index_(index). -/
def MapViewElement.ofIndex {κ ν : Type} (keyReader : SReader κ)
    (valueReader : SReader ν) (i : Nat) : MapViewElement κ ν :=
  ⟨⟨keyReader, i⟩, ⟨valueReader, i⟩, i⟩

/-- incrementIndex() of the Element: advances its own index and both
sub-accessors in lockstep. -/
def MapViewElement.incrementIndex {κ ν : Type} (e : MapViewElement κ ν) :
    MapViewElement κ ν :=
  ⟨e.first.incrementIndex, e.second.incrementIndex, e.index + 1⟩

/-! Equation lemmas, one per constructor case of the recursive definitions
above, so that later proofs rewrite with them instead of unfolding the
well-founded recursion. -/

@[simp]
theorem oor_none (b : Option Bool) : oor none b = none := rfl

@[simp]
theorem oor_true (b : Option Bool) : oor (some true) b = some true := rfl

@[simp]
theorem oor_false (b : Option Bool) : oor (some false) b = b := rfl

@[simp]
theorem containsNullAt_scalar (d : DecodedVector) (i : Nat) :
    containsNullAt (.scalar d) i = some (d.isNullAt i) := by
  simp [containsNullAt]

@[simp]
theorem containsNullAt_array_unset (d : DecodedVector)
    (offsets lengths : Nat → Nat) (child : VectorReader) (i : Nat) :
    containsNullAt (.array d offsets lengths child none) i = none := by
  simp [containsNullAt]

@[simp]
theorem containsNullAt_array_set (d : DecodedVector)
    (offsets lengths : Nat → Nat) (child : VectorReader) (valuesM : Bool)
    (i : Nat) :
    containsNullAt (.array d offsets lengths child (some valuesM)) i =
      oor (some (d.isNullAt i))
        (if valuesM then
          containsNullRange child (offsets (d.index i))
            (offsets (d.index i) + lengths (d.index i))
        else some false) := by
  simp [containsNullAt]

@[simp]
theorem containsNullAt_map_unset_left (d : DecodedVector)
    (offsets lengths : Nat → Nat) (keyReader valReader : VectorReader)
    (vm : Option Bool) (i : Nat) :
    containsNullAt (.map d offsets lengths keyReader valReader none vm) i =
      none := by
  simp [containsNullAt]

@[simp]
theorem containsNullAt_map_unset_right (d : DecodedVector)
    (offsets lengths : Nat → Nat) (keyReader valReader : VectorReader)
    (keysM : Bool) (i : Nat) :
    containsNullAt
        (.map d offsets lengths keyReader valReader (some keysM) none) i =
      none := by
  simp [containsNullAt]

@[simp]
theorem containsNullAt_map_set (d : DecodedVector)
    (offsets lengths : Nat → Nat) (keyReader valReader : VectorReader)
    (keysM valuesM : Bool) (i : Nat) :
    containsNullAt
        (.map d offsets lengths keyReader valReader (some keysM)
          (some valuesM)) i =
      oor (some (d.isNullAt i))
        (oor
          (if keysM then
            containsNullRange keyReader (offsets (d.index i))
              (offsets (d.index i) + lengths (d.index i))
          else some false)
          (if valuesM then
            containsNullRange valReader (offsets (d.index i))
              (offsets (d.index i) + lengths (d.index i))
          else some false)) := by
  simp [containsNullAt]

@[simp]
theorem containsNullAt_row (d : DecodedVector)
    (children : List VectorReader) (i : Nat) :
    containsNullAt (.row d children) i =
      oor (some (d.isNullAt i)) (anyChildAt children (d.index i)) := by
  simp [containsNullAt]

@[simp]
theorem containsNullAt_variadic (children : List VectorReader) (i : Nat) :
    containsNullAt (.variadic children) i = anyChildAt children i := by
  simp [containsNullAt]

@[simp]
theorem anyChildAt_nil (i : Nat) : anyChildAt [] i = some false := by
  simp [anyChildAt]

@[simp]
theorem anyChildAt_cons (c : VectorReader) (cs : List VectorReader)
    (i : Nat) :
    anyChildAt (c :: cs) i = oor (containsNullAt c i) (anyChildAt cs i) := by
  simp [anyChildAt]

@[simp]
theorem containsNullRange_scalar (d : DecodedVector) (s e : Nat) :
    containsNullRange (.scalar d) s e =
      loopContainsNull (.scalar d) s (e - s) := by
  simp [containsNullRange]

@[simp]
theorem containsNullRange_array (d : DecodedVector)
    (offsets lengths : Nat → Nat) (child : VectorReader) (m : Option Bool)
    (s e : Nat) :
    containsNullRange (.array d offsets lengths child m) s e =
      loopContainsNull (.array d offsets lengths child m) s (e - s) := by
  simp [containsNullRange]

@[simp]
theorem containsNullRange_map (d : DecodedVector)
    (offsets lengths : Nat → Nat) (keyReader valReader : VectorReader)
    (km vm : Option Bool) (s e : Nat) :
    containsNullRange (.map d offsets lengths keyReader valReader km vm) s e =
      loopContainsNull (.map d offsets lengths keyReader valReader km vm) s
        (e - s) := by
  simp [containsNullRange]

@[simp]
theorem containsNullRange_row (d : DecodedVector)
    (children : List VectorReader) (s e : Nat) :
    containsNullRange (.row d children) s e =
      loopContainsNull (.row d children) s (e - s) := by
  simp [containsNullRange]

@[simp]
theorem containsNullRange_variadic (children : List VectorReader)
    (s e : Nat) :
    containsNullRange (.variadic children) s e = anyChildRange children s e := by
  simp [containsNullRange]

@[simp]
theorem loopContainsNull_zero (r : VectorReader) (s : Nat) :
    loopContainsNull r s 0 = some false := by
  simp [loopContainsNull]

@[simp]
theorem loopContainsNull_succ (r : VectorReader) (s n : Nat) :
    loopContainsNull r s (n + 1) =
      oor (containsNullAt r s) (loopContainsNull r (s + 1) n) := by
  simp [loopContainsNull]

@[simp]
theorem anyChildRange_nil (s e : Nat) : anyChildRange [] s e = some false := by
  simp [anyChildRange]

@[simp]
theorem anyChildRange_cons (c : VectorReader) (cs : List VectorReader)
    (s e : Nat) :
    anyChildRange (c :: cs) s e =
      oor (containsNullRange c s e) (anyChildRange cs s e) := by
  simp [anyChildRange]

@[simp]
theorem hasNullRec_scalar (d : DecodedVector) :
    hasNullRec (.scalar d) = d.mayHaveNulls := by
  simp [hasNullRec]

@[simp]
theorem hasNullRec_array (d : DecodedVector) (offsets lengths : Nat → Nat)
    (child : VectorReader) (m : Option Bool) :
    hasNullRec (.array d offsets lengths child m) =
      (d.mayHaveNulls || hasNullRec child) := by
  simp [hasNullRec]

@[simp]
theorem hasNullRec_map (d : DecodedVector) (offsets lengths : Nat → Nat)
    (keyReader valReader : VectorReader) (km vm : Option Bool) :
    hasNullRec (.map d offsets lengths keyReader valReader km vm) =
      (d.mayHaveNulls || hasNullRec keyReader || hasNullRec valReader) := by
  simp [hasNullRec]

@[simp]
theorem hasNullRec_row (d : DecodedVector) (children : List VectorReader) :
    hasNullRec (.row d children) =
      (d.mayHaveNulls || anyHasNullRec children) := by
  simp [hasNullRec]

@[simp]
theorem hasNullRec_variadic (children : List VectorReader) :
    hasNullRec (.variadic children) = anyHasNullRec children := by
  simp [hasNullRec]

@[simp]
theorem anyHasNullRec_nil : anyHasNullRec [] = false := by
  simp [anyHasNullRec]

@[simp]
theorem anyHasNullRec_cons (c : VectorReader) (cs : List VectorReader) :
    anyHasNullRec (c :: cs) = (hasNullRec c || anyHasNullRec cs) := by
  simp [anyHasNullRec]

@[simp]
theorem mayHaveNullsRecursive_scalar (d : DecodedVector) :
    mayHaveNullsRecursive (.scalar d) = some d.mayHaveNulls := by
  simp [mayHaveNullsRecursive]

@[simp]
theorem mayHaveNullsRecursive_array_unset (d : DecodedVector)
    (offsets lengths : Nat → Nat) (child : VectorReader) :
    mayHaveNullsRecursive (.array d offsets lengths child none) = none := by
  simp [mayHaveNullsRecursive]

@[simp]
theorem mayHaveNullsRecursive_array_set (d : DecodedVector)
    (offsets lengths : Nat → Nat) (child : VectorReader) (valuesM : Bool) :
    mayHaveNullsRecursive (.array d offsets lengths child (some valuesM)) =
      some (d.mayHaveNulls || valuesM) := by
  simp [mayHaveNullsRecursive]

@[simp]
theorem mayHaveNullsRecursive_map_unset_left (d : DecodedVector)
    (offsets lengths : Nat → Nat) (keyReader valReader : VectorReader)
    (vm : Option Bool) :
    mayHaveNullsRecursive (.map d offsets lengths keyReader valReader none vm) =
      none := by
  simp [mayHaveNullsRecursive]

@[simp]
theorem mayHaveNullsRecursive_map_unset_right (d : DecodedVector)
    (offsets lengths : Nat → Nat) (keyReader valReader : VectorReader)
    (keysM : Bool) :
    mayHaveNullsRecursive
        (.map d offsets lengths keyReader valReader (some keysM) none) =
      none := by
  simp [mayHaveNullsRecursive]

@[simp]
theorem mayHaveNullsRecursive_map_set (d : DecodedVector)
    (offsets lengths : Nat → Nat) (keyReader valReader : VectorReader)
    (keysM valuesM : Bool) :
    mayHaveNullsRecursive
        (.map d offsets lengths keyReader valReader (some keysM)
          (some valuesM)) =
      some (d.mayHaveNulls || keysM || valuesM) := by
  simp [mayHaveNullsRecursive]

@[simp]
theorem mayHaveNullsRecursive_row (d : DecodedVector)
    (children : List VectorReader) :
    mayHaveNullsRecursive (.row d children) =
      some (d.mayHaveNulls || anyHasNullRec children) := by
  simp [mayHaveNullsRecursive]

@[simp]
theorem mayHaveNullsRecursive_variadic (children : List VectorReader) :
    mayHaveNullsRecursive (.variadic children) =
      anyMayHaveNullsRecursive children := by
  simp [mayHaveNullsRecursive]

@[simp]
theorem anyMayHaveNullsRecursive_nil :
    anyMayHaveNullsRecursive [] = some false := by
  simp [anyMayHaveNullsRecursive]

@[simp]
theorem anyMayHaveNullsRecursive_cons (c : VectorReader)
    (cs : List VectorReader) :
    anyMayHaveNullsRecursive (c :: cs) =
      oor (mayHaveNullsRecursive c) (anyMayHaveNullsRecursive cs) := by
  simp [anyMayHaveNullsRecursive]

@[simp]
theorem setChildrenMayHaveNulls_scalar (d : DecodedVector) :
    setChildrenMayHaveNulls (.scalar d) = .scalar d := by
  simp [setChildrenMayHaveNulls]

@[simp]
theorem setChildrenMayHaveNulls_array (d : DecodedVector)
    (offsets lengths : Nat → Nat) (child : VectorReader) (m : Option Bool) :
    setChildrenMayHaveNulls (.array d offsets lengths child m) =
      .array d offsets lengths (setChildrenMayHaveNulls child)
        (mayHaveNullsRecursive (setChildrenMayHaveNulls child)) := by
  simp [setChildrenMayHaveNulls]

@[simp]
theorem setChildrenMayHaveNulls_map (d : DecodedVector)
    (offsets lengths : Nat → Nat) (keyReader valReader : VectorReader)
    (km vm : Option Bool) :
    setChildrenMayHaveNulls (.map d offsets lengths keyReader valReader km vm) =
      .map d offsets lengths (setChildrenMayHaveNulls keyReader)
        (setChildrenMayHaveNulls valReader)
        (mayHaveNullsRecursive (setChildrenMayHaveNulls keyReader))
        (mayHaveNullsRecursive (setChildrenMayHaveNulls valReader)) := by
  simp [setChildrenMayHaveNulls]

@[simp]
theorem setChildrenMayHaveNulls_row (d : DecodedVector)
    (children : List VectorReader) :
    setChildrenMayHaveNulls (.row d children) =
      .row d (setChildrenList children) := by
  simp [setChildrenMayHaveNulls]

@[simp]
theorem setChildrenMayHaveNulls_variadic (children : List VectorReader) :
    setChildrenMayHaveNulls (.variadic children) =
      .variadic (setChildrenList children) := by
  simp [setChildrenMayHaveNulls]

@[simp]
theorem setChildrenList_nil : setChildrenList [] = [] := by
  simp [setChildrenList]

@[simp]
theorem setChildrenList_cons (c : VectorReader) (cs : List VectorReader) :
    setChildrenList (c :: cs) =
      setChildrenMayHaveNulls c :: setChildrenList cs := by
  simp [setChildrenList]

@[simp]
theorem allSetB_scalar (d : DecodedVector) : allSetB (.scalar d) = true := by
  simp [allSetB]

@[simp]
theorem allSetB_array (d : DecodedVector) (offsets lengths : Nat → Nat)
    (child : VectorReader) (m : Option Bool) :
    allSetB (.array d offsets lengths child m) =
      (m.isSome && allSetB child) := by
  simp [allSetB]

@[simp]
theorem allSetB_map (d : DecodedVector) (offsets lengths : Nat → Nat)
    (keyReader valReader : VectorReader) (km vm : Option Bool) :
    allSetB (.map d offsets lengths keyReader valReader km vm) =
      (km.isSome && vm.isSome && allSetB keyReader && allSetB valReader) := by
  simp [allSetB]

@[simp]
theorem allSetB_row (d : DecodedVector) (children : List VectorReader) :
    allSetB (.row d children) = allSetList children := by
  simp [allSetB]

@[simp]
theorem allSetB_variadic (children : List VectorReader) :
    allSetB (.variadic children) = allSetList children := by
  simp [allSetB]

@[simp]
theorem allSetList_nil : allSetList [] = true := by
  simp [allSetList]

@[simp]
theorem allSetList_cons (c : VectorReader) (cs : List VectorReader) :
    allSetList (c :: cs) = (allSetB c && allSetList cs) := by
  simp [allSetList]

@[simp]
theorem treeHasNull_scalar (d : DecodedVector) :
    treeHasNull (.scalar d) = ∃ i, i < d.size ∧ d.isNullAt i = true := by
  simp [treeHasNull]

@[simp]
theorem treeHasNull_array (d : DecodedVector) (offsets lengths : Nat → Nat)
    (child : VectorReader) (m : Option Bool) :
    treeHasNull (.array d offsets lengths child m) =
      ((∃ i, i < d.size ∧ d.isNullAt i = true) ∨ treeHasNull child) := by
  simp [treeHasNull]

@[simp]
theorem treeHasNull_map (d : DecodedVector) (offsets lengths : Nat → Nat)
    (keyReader valReader : VectorReader) (km vm : Option Bool) :
    treeHasNull (.map d offsets lengths keyReader valReader km vm) =
      ((∃ i, i < d.size ∧ d.isNullAt i = true) ∨ treeHasNull keyReader ∨
        treeHasNull valReader) := by
  simp [treeHasNull]

@[simp]
theorem treeHasNull_row (d : DecodedVector) (children : List VectorReader) :
    treeHasNull (.row d children) =
      ((∃ i, i < d.size ∧ d.isNullAt i = true) ∨ anyTreeHasNull children) := by
  simp [treeHasNull]

@[simp]
theorem treeHasNull_variadic (children : List VectorReader) :
    treeHasNull (.variadic children) = anyTreeHasNull children := by
  simp [treeHasNull]

@[simp]
theorem anyTreeHasNull_nil : anyTreeHasNull [] = False := by
  simp [anyTreeHasNull]

@[simp]
theorem anyTreeHasNull_cons (c : VectorReader) (cs : List VectorReader) :
    anyTreeHasNull (c :: cs) = (treeHasNull c ∨ anyTreeHasNull cs) := by
  simp [anyTreeHasNull]

/-! General lemmas about the protocol. -/

theorem oor_some_some (a b : Bool) : oor (some a) (some b) = some (a || b) := by
  cases a <;> simp

theorem oor_isSome {a b : Option Bool} (ha : a.isSome = true)
    (hb : b.isSome = true) : (oor a b).isSome = true := by
  cases a with
  | none => simp at ha
  | some x => cases x <;> simp [hb]

theorem oor_eq_some_true_iff {a : Option Bool} (b : Option Bool)
    (ha : a.isSome = true) :
    oor a b = some true ↔ (a = some true ∨ b = some true) := by
  cases a with
  | none => simp at ha
  | some x => cases x <;> simp

mutual

/-- Once every memo slot is set, containsNull(index) never fails the
assertion. -/
theorem containsNullAt_isSome :
    (r : VectorReader) → (i : Nat) → allSetB r = true →
      (containsNullAt r i).isSome = true
  | .scalar d, i, _ => by simp
  | .array d offsets lengths child m, i, h => by
    rw [allSetB_array, Bool.and_eq_true] at h
    obtain ⟨valuesM, rfl⟩ := Option.isSome_iff_exists.mp h.1
    rw [containsNullAt_array_set]
    refine oor_isSome (by simp) ?_
    cases valuesM with
    | false => simp
    | true =>
      simpa using containsNullRange_isSome child (offsets (d.index i))
        (offsets (d.index i) + lengths (d.index i)) h.2
  | .map d offsets lengths keyReader valReader km vm, i, h => by
    rw [allSetB_map, Bool.and_eq_true, Bool.and_eq_true, Bool.and_eq_true] at h
    obtain ⟨⟨⟨hk, hv⟩, hkr⟩, hvr⟩ := h
    obtain ⟨keysM, rfl⟩ := Option.isSome_iff_exists.mp hk
    obtain ⟨valuesM, rfl⟩ := Option.isSome_iff_exists.mp hv
    rw [containsNullAt_map_set]
    refine oor_isSome (by simp) (oor_isSome ?_ ?_)
    · cases keysM with
      | false => simp
      | true =>
        simpa using containsNullRange_isSome keyReader (offsets (d.index i))
          (offsets (d.index i) + lengths (d.index i)) hkr
    · cases valuesM with
      | false => simp
      | true =>
        simpa using containsNullRange_isSome valReader (offsets (d.index i))
          (offsets (d.index i) + lengths (d.index i)) hvr
  | .row d children, i, h => by
    rw [allSetB_row] at h
    rw [containsNullAt_row]
    exact oor_isSome (by simp) (anyChildAt_isSome children (d.index i) h)
  | .variadic children, i, h => by
    rw [allSetB_variadic] at h
    rw [containsNullAt_variadic]
    exact anyChildAt_isSome children i h
termination_by r _ _ => (3 * sizeOf r, 0)

/-- anyChildAt never fails once every memo slot of the children is set. -/
theorem anyChildAt_isSome :
    (cs : List VectorReader) → (i : Nat) → allSetList cs = true →
      (anyChildAt cs i).isSome = true
  | [], _, _ => by simp
  | c :: cs, i, h => by
    rw [allSetList_cons, Bool.and_eq_true] at h
    rw [anyChildAt_cons]
    exact oor_isSome (containsNullAt_isSome c i h.1)
      (anyChildAt_isSome cs i h.2)
termination_by cs _ _ => (3 * sizeOf cs, 0)

/-- Once every memo slot is set, containsNull(startIndex, endIndex) never
fails the assertion. -/
theorem containsNullRange_isSome :
    (r : VectorReader) → (s e : Nat) → allSetB r = true →
      (containsNullRange r s e).isSome = true
  | .scalar d, s, e, h => by
    rw [containsNullRange_scalar]
    exact loopContainsNull_isSome (.scalar d) s (e - s) h
  | .array d offsets lengths child m, s, e, h => by
    rw [containsNullRange_array]
    exact loopContainsNull_isSome (.array d offsets lengths child m) s (e - s) h
  | .map d offsets lengths keyReader valReader km vm, s, e, h => by
    rw [containsNullRange_map]
    exact loopContainsNull_isSome
      (.map d offsets lengths keyReader valReader km vm) s (e - s) h
  | .row d children, s, e, h => by
    rw [containsNullRange_row]
    exact loopContainsNull_isSome (.row d children) s (e - s) h
  | .variadic children, s, e, h => by
    rw [allSetB_variadic] at h
    rw [containsNullRange_variadic]
    exact anyChildRange_isSome children s e h
termination_by r _ _ _ => (3 * sizeOf r + 2, 0)

/-- The containsNull loop never fails once every memo slot is set. -/
theorem loopContainsNull_isSome :
    (r : VectorReader) → (s n : Nat) → allSetB r = true →
      (loopContainsNull r s n).isSome = true
  | _, _, 0, _ => by simp
  | r, s, n + 1, h => by
    rw [loopContainsNull_succ]
    exact oor_isSome (containsNullAt_isSome r s h)
      (loopContainsNull_isSome r (s + 1) n h)
termination_by r _ n _ => (3 * sizeOf r + 1, n)

/-- The Variadic range loop never fails once every memo slot of the
children is set. -/
theorem anyChildRange_isSome :
    (cs : List VectorReader) → (s e : Nat) → allSetList cs = true →
      (anyChildRange cs s e).isSome = true
  | [], _, _, _ => by simp
  | c :: cs, s, e, h => by
    rw [allSetList_cons, Bool.and_eq_true] at h
    rw [anyChildRange_cons]
    exact oor_isSome (containsNullRange_isSome c s e h.1)
      (anyChildRange_isSome cs s e h.2)
termination_by cs _ _ _ => (3 * sizeOf cs + 2, 0)

end

mutual

/-- setChildrenMayHaveNulls does not change the underlying vectors, so the
vector-level recursive null flag is unchanged. -/
theorem hasNullRec_setChildren :
    (r : VectorReader) → hasNullRec (setChildrenMayHaveNulls r) = hasNullRec r
  | .scalar d => by simp
  | .array d offsets lengths child m => by
    simp [hasNullRec_setChildren child]
  | .map d offsets lengths keyReader valReader km vm => by
    simp [hasNullRec_setChildren keyReader, hasNullRec_setChildren valReader]
  | .row d children => by
    simp [anyHasNullRec_setChildrenList children]
  | .variadic children => by
    simp [anyHasNullRec_setChildrenList children]
termination_by r => sizeOf r

/-- The list version of hasNullRec_setChildren. -/
theorem anyHasNullRec_setChildrenList :
    (cs : List VectorReader) →
      anyHasNullRec (setChildrenList cs) = anyHasNullRec cs
  | [] => by simp
  | c :: cs => by
    simp [hasNullRec_setChildren c, anyHasNullRec_setChildrenList cs]
termination_by cs => sizeOf cs

end

mutual

/-- After setChildrenMayHaveNulls, mayHaveNullsRecursive succeeds and
returns exactly the vector-level recursive null flag of the subtree. -/
theorem mayHaveNullsRecursive_setChildren :
    (r : VectorReader) →
      mayHaveNullsRecursive (setChildrenMayHaveNulls r) = some (hasNullRec r)
  | .scalar d => by simp
  | .array d offsets lengths child m => by
    simp [mayHaveNullsRecursive_setChildren child]
  | .map d offsets lengths keyReader valReader km vm => by
    simp [mayHaveNullsRecursive_setChildren keyReader,
      mayHaveNullsRecursive_setChildren valReader]
  | .row d children => by
    simp [anyHasNullRec_setChildrenList children]
  | .variadic children => by
    simp [anyMayHaveNullsRecursive_setChildrenList children]
termination_by r => sizeOf r

/-- The list version of mayHaveNullsRecursive_setChildren. -/
theorem anyMayHaveNullsRecursive_setChildrenList :
    (cs : List VectorReader) →
      anyMayHaveNullsRecursive (setChildrenList cs) =
        some (anyHasNullRec cs)
  | [] => by simp
  | c :: cs => by
    simp [mayHaveNullsRecursive_setChildren c,
      anyMayHaveNullsRecursive_setChildrenList cs, oor_some_some]
termination_by cs => sizeOf cs

end

mutual

/-- After setChildrenMayHaveNulls, every memo slot in the tree is set. -/
theorem allSetB_setChildren :
    (r : VectorReader) → allSetB (setChildrenMayHaveNulls r) = true
  | .scalar d => by simp
  | .array d offsets lengths child m => by
    simp [mayHaveNullsRecursive_setChildren child, allSetB_setChildren child]
  | .map d offsets lengths keyReader valReader km vm => by
    simp [mayHaveNullsRecursive_setChildren keyReader,
      mayHaveNullsRecursive_setChildren valReader,
      allSetB_setChildren keyReader, allSetB_setChildren valReader]
  | .row d children => by
    simp [allSetList_setChildrenList children]
  | .variadic children => by
    simp [allSetList_setChildrenList children]
termination_by r => sizeOf r

/-- The list version of allSetB_setChildren. -/
theorem allSetList_setChildrenList :
    (cs : List VectorReader) → allSetList (setChildrenList cs) = true
  | [] => by simp
  | c :: cs => by
    simp [allSetB_setChildren c, allSetList_setChildrenList cs]
termination_by cs => sizeOf cs

end

/-- The exact meaning of the spec-modelled mayHaveNulls of a Decoded
Source: some row of the batch is null. -/
theorem mayHaveNulls_eq_true_iff (d : DecodedVector) :
    d.mayHaveNulls = true ↔ ∃ i, i < d.size ∧ d.isNullAt i = true := by
  simp [DecodedVector.mayHaveNulls, List.any_eq_true, List.mem_range]

mutual

/-- The vector-level recursive null flag holds iff some vector in the
subtree has a null row. -/
theorem hasNullRec_eq_true_iff :
    (r : VectorReader) → (hasNullRec r = true ↔ treeHasNull r)
  | .scalar d => by
    simp [mayHaveNulls_eq_true_iff]
  | .array d offsets lengths child m => by
    simp [mayHaveNulls_eq_true_iff, hasNullRec_eq_true_iff child]
  | .map d offsets lengths keyReader valReader km vm => by
    simp [mayHaveNulls_eq_true_iff, hasNullRec_eq_true_iff keyReader,
      hasNullRec_eq_true_iff valReader, or_assoc]
  | .row d children => by
    simp [mayHaveNulls_eq_true_iff, anyHasNullRec_eq_true_iff children]
  | .variadic children => by
    simp [anyHasNullRec_eq_true_iff children]
termination_by r => sizeOf r

/-- The list version of hasNullRec_eq_true_iff. -/
theorem anyHasNullRec_eq_true_iff :
    (cs : List VectorReader) → (anyHasNullRec cs = true ↔ anyTreeHasNull cs)
  | [] => by simp
  | c :: cs => by
    simp [hasNullRec_eq_true_iff c, anyHasNullRec_eq_true_iff cs]
termination_by cs => sizeOf cs

end

/-- The containsNull loop over [s, s + n) is true iff some visited index
reports containsNull. -/
theorem loopContainsNull_eq_some_true_iff (r : VectorReader)
    (h : allSetB r = true) (s n : Nat) :
    loopContainsNull r s n = some true ↔
      ∃ k, k < n ∧ containsNullAt r (s + k) = some true := by
  induction n generalizing s with
  | zero => simp
  | succ n ih =>
    rw [loopContainsNull_succ,
      oor_eq_some_true_iff _ (containsNullAt_isSome r s h), ih (s + 1)]
    constructor
    · rintro (h1 | ⟨k, hk, h2⟩)
      · exact ⟨0, by omega, by simpa using h1⟩
      · refine ⟨k + 1, by omega, ?_⟩
        have heq : s + (k + 1) = s + 1 + k := by omega
        rw [heq]
        exact h2
    · rintro ⟨k, hk, h2⟩
      cases k with
      | zero => exact Or.inl (by simpa using h2)
      | succ k =>
        refine Or.inr ⟨k, by omega, ?_⟩
        have heq : s + 1 + k = s + (k + 1) := by omega
        rw [heq]
        exact h2

/-- The containsNull loop phrased over the window [s, e). -/
theorem loopContainsNull_window_iff (r : VectorReader)
    (h : allSetB r = true) (s e : Nat) :
    loopContainsNull r s (e - s) = some true ↔
      ∃ j, s ≤ j ∧ j < e ∧ containsNullAt r j = some true := by
  rw [loopContainsNull_eq_some_true_iff r h]
  constructor
  · rintro ⟨k, hk, h2⟩
    exact ⟨s + k, by omega, by omega, h2⟩
  · rintro ⟨j, hj1, hj2, h2⟩
    refine ⟨j - s, by omega, ?_⟩
    have heq : s + (j - s) = j := by omega
    rw [heq]
    exact h2

/-- The child fold of Row and Variadic containsNull(index) is true iff some
child reports containsNull at that index. -/
theorem anyChildAt_eq_some_true_iff (cs : List VectorReader) (i : Nat)
    (h : allSetList cs = true) :
    anyChildAt cs i = some true ↔
      ∃ c, c ∈ cs ∧ containsNullAt c i = some true := by
  induction cs with
  | nil => simp
  | cons c cs ih =>
    rw [allSetList_cons, Bool.and_eq_true] at h
    rw [anyChildAt_cons,
      oor_eq_some_true_iff _ (containsNullAt_isSome c i h.1), ih h.2]
    simp [List.mem_cons]

mutual

/-- Once every memo slot is set, containsNull(startIndex, endIndex) is true
iff some index of the window reports containsNull(index). -/
theorem containsNullRange_eq_some_true_iff :
    (r : VectorReader) → (s e : Nat) → allSetB r = true →
      (containsNullRange r s e = some true ↔
        ∃ j, s ≤ j ∧ j < e ∧ containsNullAt r j = some true)
  | .scalar d, s, e, h => by
    rw [containsNullRange_scalar]
    exact loopContainsNull_window_iff _ h s e
  | .array d offsets lengths child m, s, e, h => by
    rw [containsNullRange_array]
    exact loopContainsNull_window_iff _ h s e
  | .map d offsets lengths keyReader valReader km vm, s, e, h => by
    rw [containsNullRange_map]
    exact loopContainsNull_window_iff _ h s e
  | .row d children, s, e, h => by
    rw [containsNullRange_row]
    exact loopContainsNull_window_iff _ h s e
  | .variadic children, s, e, h => by
    rw [allSetB_variadic] at h
    rw [containsNullRange_variadic, anyChildRange_ex children s e h]
    constructor
    · rintro ⟨c, hc, j, hj1, hj2, hat⟩
      refine ⟨j, hj1, hj2, ?_⟩
      rw [containsNullAt_variadic]
      exact (anyChildAt_eq_some_true_iff children j h).mpr ⟨c, hc, hat⟩
    · rintro ⟨j, hj1, hj2, hat⟩
      rw [containsNullAt_variadic] at hat
      obtain ⟨c, hc, hcat⟩ := (anyChildAt_eq_some_true_iff children j h).mp hat
      exact ⟨c, hc, j, hj1, hj2, hcat⟩
termination_by r _ _ _ => (3 * sizeOf r + 2, 0)

/-- The Variadic range loop is true iff some child has some window index
reporting containsNull. -/
theorem anyChildRange_ex :
    (cs : List VectorReader) → (s e : Nat) → allSetList cs = true →
      (anyChildRange cs s e = some true ↔
        ∃ c, c ∈ cs ∧ ∃ j, s ≤ j ∧ j < e ∧ containsNullAt c j = some true)
  | [], _, _, _ => by simp
  | c :: cs, s, e, h => by
    rw [allSetList_cons, Bool.and_eq_true] at h
    rw [anyChildRange_cons,
      oor_eq_some_true_iff _ (containsNullRange_isSome c s e h.1),
      containsNullRange_eq_some_true_iff c s e h.1,
      anyChildRange_ex cs s e h.2]
    simp [List.mem_cons]
termination_by cs _ _ _ => (3 * sizeOf cs + 2, 0)

end

/-- An Option Bool that is set but not true is false. -/
theorem eq_some_false_of_isSome_of_ne_true {x : Option Bool}
    (h1 : x.isSome = true) (h2 : x ≠ some true) : x = some false := by
  cases x with
  | none => simp at h1
  | some b =>
    cases b with
    | false => rfl
    | true => exact absurd rfl h2

/-- The shape of the Array containsNull(index) body once the memo is set. -/
theorem oor2_eq_some_true_iff {n k : Bool} {rk : Option Bool}
    (hk : rk.isSome = true) :
    oor (some n) (if k then rk else some false) = some true ↔
      (n = true ∨ (k = true ∧ rk = some true)) := by
  have h1 : (if k then rk else some false).isSome = true := by
    cases k <;> simp [hk]
  rw [oor_eq_some_true_iff _ (by simp)]
  cases k <;> simp

/-- The shape of the Map containsNull(index) body once the memos are set. -/
theorem oor3_eq_some_true_iff {n k v : Bool} {rk rv : Option Bool}
    (hk : rk.isSome = true) (_hv : rv.isSome = true) :
    oor (some n)
        (oor (if k then rk else some false) (if v then rv else some false)) =
      some true ↔
      (n = true ∨ (k = true ∧ rk = some true) ∨
        (v = true ∧ rv = some true)) := by
  have h1 : (if k then rk else some false).isSome = true := by
    cases k <;> simp [hk]
  rw [oor_eq_some_true_iff _ (by simp), oor_eq_some_true_iff _ h1]
  cases k <;> cases v <;> simp

/-- C2: after setChildrenMayHaveNulls has run, the Map containsNull(index)
is true iff the map row itself is null at the index, or the key subtree
memo flag is set and some key of the window
[offsets[index(i)], offsets[index(i)] + lengths[index(i)]) reports
containsNull, or the value subtree memo flag is set and some value of that
window reports containsNull. -/
theorem map_containsNull_after_setChildren (d : DecodedVector)
    (offsets lengths : Nat → Nat) (keyReader valReader : VectorReader)
    (km vm : Option Bool) (i : Nat) :
    containsNullAt
        (setChildrenMayHaveNulls
          (.map d offsets lengths keyReader valReader km vm)) i =
        some true ↔
      (d.isNullAt i = true ∨
        (mayHaveNullsRecursive (setChildrenMayHaveNulls keyReader) =
            some true ∧
          ∃ j, offsets (d.index i) ≤ j ∧
            j < offsets (d.index i) + lengths (d.index i) ∧
            containsNullAt (setChildrenMayHaveNulls keyReader) j =
              some true) ∨
        (mayHaveNullsRecursive (setChildrenMayHaveNulls valReader) =
            some true ∧
          ∃ j, offsets (d.index i) ≤ j ∧
            j < offsets (d.index i) + lengths (d.index i) ∧
            containsNullAt (setChildrenMayHaveNulls valReader) j =
              some true)) := by
  have hks := allSetB_setChildren keyReader
  have hvs := allSetB_setChildren valReader
  rw [setChildrenMayHaveNulls_map, mayHaveNullsRecursive_setChildren keyReader,
    mayHaveNullsRecursive_setChildren valReader, containsNullAt_map_set,
    oor3_eq_some_true_iff (containsNullRange_isSome _ _ _ hks)
      (containsNullRange_isSome _ _ _ hvs),
    containsNullRange_eq_some_true_iff _ _ _ hks,
    containsNullRange_eq_some_true_iff _ _ _ hvs]
  simp

/-- C3: after setChildrenMayHaveNulls has run, the Array containsNull(index)
is true iff the array row itself is null at the index, or the child subtree
memo flag is set and some element of the window
[offsets[index(i)], offsets[index(i)] + lengths[index(i)]) reports
containsNull; in particular a row with length 0 and a clear null bit
reports false. -/
theorem array_containsNull_after_setChildren (d : DecodedVector)
    (offsets lengths : Nat → Nat) (child : VectorReader) (m : Option Bool)
    (i : Nat) :
    (containsNullAt
        (setChildrenMayHaveNulls (.array d offsets lengths child m)) i =
        some true ↔
      (d.isNullAt i = true ∨
        (mayHaveNullsRecursive (setChildrenMayHaveNulls child) = some true ∧
          ∃ j, offsets (d.index i) ≤ j ∧
            j < offsets (d.index i) + lengths (d.index i) ∧
            containsNullAt (setChildrenMayHaveNulls child) j =
              some true))) ∧
    (lengths (d.index i) = 0 → d.isNullAt i = false →
      containsNullAt
        (setChildrenMayHaveNulls (.array d offsets lengths child m)) i =
        some false) := by
  have hcs := allSetB_setChildren child
  constructor
  · rw [setChildrenMayHaveNulls_array, mayHaveNullsRecursive_setChildren child,
      containsNullAt_array_set,
      oor2_eq_some_true_iff (containsNullRange_isSome _ _ _ hcs),
      containsNullRange_eq_some_true_iff _ _ _ hcs]
    simp
  · intro hlen hnull
    rw [setChildrenMayHaveNulls_array, mayHaveNullsRecursive_setChildren child,
      containsNullAt_array_set, hnull, hlen, Nat.add_zero, oor_false]
    have hrk : containsNullRange (setChildrenMayHaveNulls child)
        (offsets (d.index i)) (offsets (d.index i)) = some false := by
      refine eq_some_false_of_isSome_of_ne_true
        (containsNullRange_isSome _ _ _ hcs) ?_
      intro htrue
      rw [containsNullRange_eq_some_true_iff _ _ _ hcs] at htrue
      obtain ⟨j, hj1, hj2, _⟩ := htrue
      omega
    cases hasNullRec child <;> simp [hrk]

/-- C1 (counterexample): a freshly constructed Row reader over a scalar
child, and a freshly constructed Variadic reader over a scalar child, have
no memo slot at all; the three query operations succeed before
setChildrenMayHaveNulls instead of failing an assertion. -/
theorem row_variadic_queries_succeed_before_setChildren :
    containsNullAt
        (.row ⟨2, fun i => i == 0, fun i => i⟩
          [.scalar ⟨2, fun _ => false, fun i => i⟩]) 1 = some false ∧
    containsNullRange
        (.row ⟨2, fun i => i == 0, fun i => i⟩
          [.scalar ⟨2, fun _ => false, fun i => i⟩]) 0 2 = some true ∧
    mayHaveNullsRecursive
        (.row ⟨2, fun i => i == 0, fun i => i⟩
          [.scalar ⟨2, fun _ => false, fun i => i⟩]) = some true ∧
    containsNullAt (.variadic [.scalar ⟨2, fun _ => false, fun i => i⟩]) 1 =
      some false ∧
    mayHaveNullsRecursive
        (.variadic [.scalar ⟨2, fun _ => false, fun i => i⟩]) =
      some false := by
  refine ⟨?_, ?_, ?_, ?_, ?_⟩ <;>
    simp [DecodedVector.mayHaveNulls, List.range_succ]

/-- C1 (amended): before setChildrenMayHaveNulls has run, the Map and Array
readers fail the memo assertion on containsNull(index), on
mayHaveNullsRecursive(), and on containsNull(start, end) whenever the range
is nonempty; an empty range returns false without reaching the assertion. -/
theorem map_array_queries_assert_before_setChildren (d : DecodedVector)
    (offsets lengths : Nat → Nat) (keyReader valReader child : VectorReader)
    (i s e : Nat) :
    containsNullAt (.map d offsets lengths keyReader valReader none none) i =
      none ∧
    mayHaveNullsRecursive
        (.map d offsets lengths keyReader valReader none none) = none ∧
    (s < e →
      containsNullRange
          (.map d offsets lengths keyReader valReader none none) s e =
        none) ∧
    containsNullAt (.array d offsets lengths child none) i = none ∧
    mayHaveNullsRecursive (.array d offsets lengths child none) = none ∧
    (s < e →
      containsNullRange (.array d offsets lengths child none) s e = none) := by
  refine ⟨by simp, by simp, ?_, by simp, by simp, ?_⟩
  · intro hse
    have heq : e - s = (e - s - 1) + 1 := by omega
    rw [containsNullRange_map, heq, loopContainsNull_succ,
      containsNullAt_map_unset_left, oor_none]
  · intro hse
    have heq : e - s = (e - s - 1) + 1 := by omega
    rw [containsNullRange_array, heq, loopContainsNull_succ,
      containsNullAt_array_unset, oor_none]

/-- C1 (witness for the amended theorem): a concrete fresh Map reader and a
concrete fresh Array reader fail the assertion on a nonempty range query. -/
theorem map_array_queries_assert_before_setChildren_witness :
    containsNullRange
        (.map ⟨1, fun _ => false, fun i => i⟩ (fun _ => 0) (fun _ => 1)
          (.scalar ⟨1, fun _ => false, fun i => i⟩)
          (.scalar ⟨1, fun _ => false, fun i => i⟩) none none) 0 1 = none ∧
    containsNullRange
        (.array ⟨1, fun _ => false, fun i => i⟩ (fun _ => 0) (fun _ => 1)
          (.scalar ⟨1, fun _ => false, fun i => i⟩) none) 0 1 = none := by
  refine ⟨?_, ?_⟩
  · exact (map_array_queries_assert_before_setChildren
      ⟨1, fun _ => false, fun i => i⟩ (fun _ => 0) (fun _ => 1)
      (.scalar ⟨1, fun _ => false, fun i => i⟩)
      (.scalar ⟨1, fun _ => false, fun i => i⟩)
      (.scalar ⟨1, fun _ => false, fun i => i⟩) 0 0 1).2.2.1 (by omega)
  · exact (map_array_queries_assert_before_setChildren
      ⟨1, fun _ => false, fun i => i⟩ (fun _ => 0) (fun _ => 1)
      (.scalar ⟨1, fun _ => false, fun i => i⟩)
      (.scalar ⟨1, fun _ => false, fun i => i⟩)
      (.scalar ⟨1, fun _ => false, fun i => i⟩) 0 0 1).2.2.2.2.2 (by omega)

/-- C8 (counterexample): mayHaveNullsRecursive is a batch-level flag, not a
per-row one. For an Array reader whose row 0 is null but whose row 1 is
null-free in its whole subtree (empty window, clear null bit), the flag is
true after setChildrenMayHaveNulls even though row 1 is not null and has no
null descendant, refuting the claimed per-row iff at row 1. -/
theorem mayHaveNullsRecursive_not_per_row :
    mayHaveNullsRecursive
        (setChildrenMayHaveNulls
          (.array ⟨2, fun i => i == 0, fun i => i⟩ (fun _ => 0) (fun _ => 0)
            (.scalar ⟨0, fun _ => false, fun i => i⟩) none)) = some true ∧
    (⟨2, fun i => i == 0, fun i => i⟩ : DecodedVector).isNullAt 1 = false ∧
    containsNullAt
        (setChildrenMayHaveNulls
          (.array ⟨2, fun i => i == 0, fun i => i⟩ (fun _ => 0) (fun _ => 0)
            (.scalar ⟨0, fun _ => false, fun i => i⟩) none)) 1 =
      some false := by
  refine ⟨?_, rfl, ?_⟩ <;>
    simp [DecodedVector.mayHaveNulls, List.range_succ]

/-- C8 (amended): for any reader tree, after setChildrenMayHaveNulls,
mayHaveNullsRecursive succeeds and returns true iff some row of the
reader batch is null or some row of some descendant vector is null. -/
theorem mayHaveNullsRecursive_iff_treeHasNull (r : VectorReader) :
    mayHaveNullsRecursive (setChildrenMayHaveNulls r) = some true ↔
      treeHasNull r := by
  rw [mayHaveNullsRecursive_setChildren r, Option.some_inj]
  exact hasNullRec_eq_true_iff r

/-- C4: every null-protocol operation of the Generic reader fails
immediately and unconditionally with the distinct unsupported signal, for
every input, and never returns a computed (possibly wrong) null result. -/
theorem generic_null_protocol_unsupported (g : GenericVectorReader)
    (i s e : Nat) :
    GenericVectorReader.containsNullAt g i =
        .error (.unsupported genericUnsupportedMsg) ∧
    GenericVectorReader.containsNullRange g s e =
        .error (.unsupported genericUnsupportedMsg) ∧
    GenericVectorReader.mayHaveNullsRecursive g =
        .error (.unsupported genericUnsupportedMsg) ∧
    GenericVectorReader.setChildrenMayHaveNulls g =
        .error (.unsupported genericUnsupportedMsg) ∧
    (∀ b : Bool, GenericVectorReader.containsNullAt g i ≠ .ok b) ∧
    (∀ b : Bool, GenericVectorReader.containsNullRange g s e ≠ .ok b) ∧
    (∀ b : Bool, GenericVectorReader.mayHaveNullsRecursive g ≠ .ok b) ∧
    (∀ u : Unit, GenericVectorReader.setChildrenMayHaveNulls g ≠ .ok u) := by
  refine ⟨rfl, rfl, rfl, rfl, ?_, ?_, ?_, ?_⟩ <;> intro x h <;>
    simp [GenericVectorReader.containsNullAt,
      GenericVectorReader.containsNullRange,
      GenericVectorReader.mayHaveNullsRecursive,
      GenericVectorReader.setChildrenMayHaveNulls] at h

/-- C5: equality between two Optional Accessors: both absent are equal,
exactly one absent is unequal, both present compares the underlying
values; the not-equal operator is the negation. -/
theorem accessor_equality_spec {α : Type} [BEq α]
    (a b : OptionalVectorValueAccessor α) :
    (a.hasValue = false → b.hasValue = false →
      OptionalVectorValueAccessor.beqAccessor a b = true) ∧
    (a.hasValue ≠ b.hasValue →
      OptionalVectorValueAccessor.beqAccessor a b = false) ∧
    (a.hasValue = true → b.hasValue = true →
      OptionalVectorValueAccessor.beqAccessor a b = (a.value == b.value)) ∧
    OptionalVectorValueAccessor.bneAccessor a b =
      !(OptionalVectorValueAccessor.beqAccessor a b) := by
  refine ⟨?_, ?_, ?_, rfl⟩
  · intro h1 h2
    simp [OptionalVectorValueAccessor.beqAccessor, h1, h2]
  · intro h
    have hne : (b.hasValue != a.hasValue) = true := by
      cases ha : a.hasValue <;> cases hb : b.hasValue <;> simp_all
    simp [OptionalVectorValueAccessor.beqAccessor, hne]
  · intro h1 h2
    simp [OptionalVectorValueAccessor.beqAccessor, h1, h2]

/-- C5 (witness): the three branches of the accessor equality at concrete
accessors over Nat. -/
theorem accessor_equality_spec_witness :
    OptionalVectorValueAccessor.beqAccessor
        (⟨⟨fun _ => false, fun _ => (0 : Nat)⟩, 0⟩ :
          OptionalVectorValueAccessor Nat)
        ⟨⟨fun _ => false, fun _ => 1⟩, 0⟩ = true ∧
    OptionalVectorValueAccessor.beqAccessor
        (⟨⟨fun _ => true, fun _ => (5 : Nat)⟩, 0⟩ :
          OptionalVectorValueAccessor Nat)
        ⟨⟨fun _ => false, fun _ => 1⟩, 0⟩ = false ∧
    OptionalVectorValueAccessor.beqAccessor
        (⟨⟨fun _ => true, fun _ => (5 : Nat)⟩, 0⟩ :
          OptionalVectorValueAccessor Nat)
        ⟨⟨fun _ => true, fun _ => 5⟩, 0⟩ = ((5 : Nat) == 5) := by
  refine ⟨?_, ?_, ?_⟩
  · exact (accessor_equality_spec _ _).1 rfl rfl
  · exact (accessor_equality_spec _ _).2.1 (by decide)
  · exact (accessor_equality_spec _ _).2.2.1 rfl rfl

/-- C6: equality between an Optional Accessor and a native optional is
symmetric in both the equal and not-equal forms, treats both absent as
equal and exactly one absent as unequal. -/
theorem opt_accessor_equality_symmetric {α : Type} [BEq α] (o : Option α)
    (a : OptionalVectorValueAccessor α) :
    accessorEqOpt a o = optEqAccessor o a ∧
    accessorNeOpt a o = optNeAccessor o a ∧
    (o = none → a.hasValue = false →
      optEqAccessor o a = true ∧ accessorEqOpt a o = true) ∧
    (o.isSome = true → a.hasValue = false →
      optEqAccessor o a = false ∧ accessorEqOpt a o = false) ∧
    (o = none → a.hasValue = true →
      optEqAccessor o a = false ∧ accessorEqOpt a o = false) := by
  refine ⟨rfl, rfl, ?_, ?_, ?_⟩
  · rintro rfl h2
    constructor <;> simp [optEqAccessor, accessorEqOpt, h2]
  · intro h1 h2
    constructor <;> simp [optEqAccessor, accessorEqOpt, h1, h2]
  · rintro rfl h2
    constructor <;> simp [optEqAccessor, accessorEqOpt, h2]

/-- C6 (witness): the three absence branches at concrete values over Nat. -/
theorem opt_accessor_equality_symmetric_witness :
    optEqAccessor (none : Option Nat)
        (⟨⟨fun _ => false, fun _ => 0⟩, 0⟩ :
          OptionalVectorValueAccessor Nat) = true ∧
    optEqAccessor (some (7 : Nat))
        (⟨⟨fun _ => false, fun _ => 0⟩, 0⟩ :
          OptionalVectorValueAccessor Nat) = false ∧
    optEqAccessor (none : Option Nat)
        (⟨⟨fun _ => true, fun _ => 0⟩, 0⟩ :
          OptionalVectorValueAccessor Nat) = false := by
  refine ⟨?_, ?_, ?_⟩
  · exact ((opt_accessor_equality_symmetric (none : Option Nat)
      (⟨⟨fun _ => false, fun _ => 0⟩, 0⟩ :
        OptionalVectorValueAccessor Nat)).2.2.1 rfl rfl).1
  · exact ((opt_accessor_equality_symmetric (some (7 : Nat))
      (⟨⟨fun _ => false, fun _ => 0⟩, 0⟩ :
        OptionalVectorValueAccessor Nat)).2.2.2.1 rfl rfl).1
  · exact ((opt_accessor_equality_symmetric (none : Option Nat)
      (⟨⟨fun _ => true, fun _ => 0⟩, 0⟩ :
        OptionalVectorValueAccessor Nat)).2.2.2.2 rfl rfl).1

/-- The iterator loop from index o to index o + n visits exactly the
accessors at indices o, o + 1, ..., o + n - 1 in order. -/
theorem iterCollect_range {α : Type} (r : SReader α) (o n : Nat) :
    iterCollect n
        (⟨⟨r, o⟩⟩ : IndexBasedIterator α) ⟨⟨r, o + n⟩⟩ =
      (List.range' o n).map
        (fun j => (⟨r, j⟩ : OptionalVectorValueAccessor α)) := by
  induction n generalizing o with
  | zero => simp [iterCollect]
  | succ n ih =>
    have hne : IndexBasedIterator.bne
        (⟨⟨r, o⟩⟩ : IndexBasedIterator α) ⟨⟨r, o + (n + 1)⟩⟩ = true := by
      simp [IndexBasedIterator.bne]
    have heq : o + (n + 1) = (o + 1) + n := by omega
    rw [iterCollect, if_pos hne, List.range'_succ]
    simp only [IndexBasedIterator.deref, IndexBasedIterator.inc,
      OptionalVectorValueAccessor.incrementIndex, heq, List.map_cons]
    rw [ih (o + 1)]

/-- C7: for an ArrayView (reader, offset, length): size() is the length,
at(i) and operator[](i) agree and return the accessor at offset + i over
the child reader, begin() and end() sit at offset and offset + length, and
the iterator loop (to which a range-for lowers) visits exactly the same
accessors in the same order as the indexed loop. -/
theorem array_view_access_agree {α : Type} (r : SReader α) (o n i : Nat) :
    ArrayView.sizeFn (⟨r, o, n⟩ : ArrayView α) = n ∧
    ArrayView.atIdx (⟨r, o, n⟩ : ArrayView α) i = ArrayView.get ⟨r, o, n⟩ i ∧
    (ArrayView.get (⟨r, o, n⟩ : ArrayView α) i).index = i + o ∧
    (ArrayView.get (⟨r, o, n⟩ : ArrayView α) i).reader = r ∧
    (ArrayView.begin (⟨r, o, n⟩ : ArrayView α)).element.index = o ∧
    (ArrayView.endIter (⟨r, o, n⟩ : ArrayView α)).element.index = o + n ∧
    iterCollect n (ArrayView.begin (⟨r, o, n⟩ : ArrayView α))
        (ArrayView.endIter ⟨r, o, n⟩) =
      indexedCollect ⟨r, o, n⟩ ∧
    (indexedCollect (⟨r, o, n⟩ : ArrayView α)).length = n := by
  refine ⟨rfl, rfl, rfl, rfl, rfl, rfl, ?_, by simp [indexedCollect]⟩
  show iterCollect n (⟨⟨r, o⟩⟩ : IndexBasedIterator α) ⟨⟨r, o + n⟩⟩ = _
  rw [iterCollect_range r o n]
  simp only [indexedCollect, ArrayView.get, List.range'_eq_map_range,
    List.map_map]
  refine List.map_congr_left (fun j _ => ?_)
  simp [Function.comp, Nat.add_comm]

/-- C9: the MapView Element keeps its own index and the indices of its key
and value sub-accessors in lockstep: after any number of incrementIndex
steps from construction at index i, all three indices equal i + n. -/
theorem map_element_indices_lockstep {κ ν : Type} (kr : SReader κ)
    (vr : SReader ν) (i n : Nat) :
    (MapViewElement.incrementIndex^[n]
        (MapViewElement.ofIndex kr vr i)).first.index = i + n ∧
    (MapViewElement.incrementIndex^[n]
        (MapViewElement.ofIndex kr vr i)).second.index = i + n ∧
    (MapViewElement.incrementIndex^[n]
        (MapViewElement.ofIndex kr vr i)).index = i + n := by
  induction n with
  | zero => simp [MapViewElement.ofIndex]
  | succ n ih =>
    obtain ⟨h1, h2, h3⟩ := ih
    rw [Function.iterate_succ_apply']
    simp only [MapViewElement.incrementIndex, LazyKeyAccessor.incrementIndex,
      OptionalVectorValueAccessor.incrementIndex, h1, h2, h3]
    omega

/-- C10: ArrayView mayHaveNulls() returns false unconditionally, for every
view, whatever the underlying child reader holds. -/
theorem array_view_mayHaveNulls_false {α : Type} (v : ArrayView α) :
    ArrayView.mayHaveNulls v = false :=
  rfl

/-- C3 (witness): a concrete Array reader whose row 0 has length 0 and a
clear null bit reports containsNull false after setChildrenMayHaveNulls. -/
theorem array_containsNull_after_setChildren_witness :
    containsNullAt
        (setChildrenMayHaveNulls
          (.array ⟨1, fun _ => false, fun i => i⟩ (fun _ => 0) (fun _ => 0)
            (.scalar ⟨0, fun _ => false, fun i => i⟩) none)) 0 =
      some false :=
  (array_containsNull_after_setChildren ⟨1, fun _ => false, fun i => i⟩
    (fun _ => 0) (fun _ => 0) (.scalar ⟨0, fun _ => false, fun i => i⟩)
    none 0).2 rfl rfl

end Velox
